import Mathlib

/-!
Verification of the Sardine timing/scheduling core (`src/sardine/clock/Clock.py`
and the timing utilities in `src/sardine/__init__.py`) against its
natural-language specification.

Modelling conventions:
* Python numbers (`bpm`, `delta`, durations) are modelled as rationals `ℚ`;
  the arithmetic the claims mention is exact at every input considered here.
* The MIDI output object (`self._midi`, whose class `MIDIIo` is not part of
  the core) is modelled as the sink of the spec: an event trace, newest event
  first.  `send(start)`, `send_stop()`/`send(stop)` and `send_clock_async()`
  append the corresponding event.
* `itertools.cycle(range(1, k + 1))` generators: `self.phase` (resp.
  `self.current_beat`) is assigned only from `next(self._phase_gen)` (resp.
  `next(self._current_beat_gen)`) and is reset to `0` exactly when the
  generator is rebuilt, so the generator's next value is always
  `field % k + 1`; the generators are modelled by that function of the field.
* Wall-clock time (`time.perf_counter`) is not modelled; the measured
  scheduling error `end - begin - tick_duration` that a tick stores into
  `self.delta` is an input parameter of the tick function.
-/

namespace Sardine

/-- Events sent to the MIDI sink (`self._midi`). -/
inductive MidiEvent where
  | start
  | stop
  | clock
  deriving DecidableEq, Repr

/-- The function objects passed to `Clock.schedule`: Python reflection gives
each a `__name__`, and `inspect.iscoroutinefunction` tests whether it is a
coroutine function. -/
structure CoroFunc where
  name : String
  is_coroutine : Bool
  deriving DecidableEq, Repr

/-- Modelled from the spec: `AsyncRunner` (its source file
`src/sardine/clock/AsyncRunner.py` is not under `src/`).  Per the spec a
Runner holds `pendingInvocation` (optional, action + arguments; overwritten,
never queued), `stopRequested` (the `_stop` attribute that `Clock.start` and
`Clock.stop` write directly) and `started`.  Arguments are modelled as an
opaque list of strings. -/
structure Runner where
  pending : Option (CoroFunc × List String)
  stopFlag : Bool
  started : Bool
  deriving DecidableEq, Repr

/-- Modelled from the spec: `AsyncRunner.push` overwrites the Runner's pending
invocation with the given action and arguments (last write wins, no queue). -/
def Runner.push (r : Runner) (f : CoroFunc) (args : List String) : Runner :=
  { r with pending := some (f, args) }

/-- Modelled from the spec: `AsyncRunner.start` starts the runner's execution
loop; afterwards `started` holds. -/
def Runner.start (r : Runner) : Runner :=
  { r with started := true }

/-- The state held by a `Clock` object (`Clock.__init__`).  `runners` is the
`dict[str, AsyncRunner]` modelled as an association list (first match wins,
like repeated dict lookup; insertion at the head).  `trace` is the event
history of the MIDI sink. -/
structure ClockState where
  bpm : ℚ
  initial_time : ℚ
  delta : ℚ
  beat : ℤ
  ppqn : ℕ
  phase : ℕ
  beat_per_bar : ℕ
  current_beat : ℕ
  elapsed_bars : ℕ
  tick_duration : ℚ
  tick_time : ℕ
  running : Bool
  debug : Bool
  runners : List (String × Runner)
  trace : List MidiEvent
  deriving DecidableEq, Repr

/-- Source `Clock._get_tick_duration`: `((60 / self.bpm) / self.ppqn) - self.delta`. -/
def get_tick_duration (s : ClockState) : ℚ :=
  (60 / s.bpm) / (s.ppqn : ℚ) - s.delta

namespace Clock

/-- Source `Clock.__init__(bpm=120, beat_per_bar=4)`.  `tick_duration` is
computed by `_get_tick_duration` after `bpm`, `delta` and `ppqn` are set
(the placeholder value `0` in the first record is immediately replaced). -/
def init (bpm : ℚ) (beat_per_bar : ℕ) : ClockState :=
  let s : ClockState :=
    { bpm := bpm
      initial_time := 0
      delta := 0
      beat := -1
      ppqn := 48
      phase := 0
      beat_per_bar := beat_per_bar
      current_beat := 0
      elapsed_bars := 0
      tick_duration := 0
      tick_time := 0
      running := false
      debug := false
      runners := []
      trace := [] }
  { s with tick_duration := get_tick_duration s }

/-- Source `Clock.init_reset(runners, bpm, midi, beat_per_bar)`.  Note that the
body assigns `self.runners = {}`, discarding the `runners` argument, and that
it does not touch `self.running` or `self.beat`.  `tick_duration` is
recomputed after `bpm`, `delta` and `ppqn` are set. -/
def init_reset (s : ClockState) (runners : List (String × Runner)) (bpm : ℚ)
    (beat_per_bar : ℕ) : ClockState :=
  let s1 : ClockState :=
    { s with
      runners := ([] : List (String × Runner))
      debug := false
      bpm := bpm
      initial_time := 0
      delta := 0
      ppqn := 48
      phase := 0
      beat_per_bar := beat_per_bar
      current_beat := 0
      elapsed_bars := 0
      tick_time := 0 }
  { s1 with tick_duration := get_tick_duration s1 }

/-- Source `Clock.set_bpm(new_bpm)`: applied only when `1 < new_bpm < 800`,
in which case `tick_duration` is recomputed; otherwise nothing happens. -/
def set_bpm (s : ClockState) (new_bpm : ℚ) : ClockState :=
  if 1 < new_bpm ∧ new_bpm < 800 then
    let s1 := { s with bpm := new_bpm }
    { s1 with tick_duration := get_tick_duration s1 }
  else s

/-- Source `Clock.reset`: `init_reset` with the clock's own current
`runners`, `bpm`, `midi` and `beat_per_bar`. -/
def reset (s : ClockState) : ClockState :=
  init_reset s s.runners s.bpm s.beat_per_bar

end Clock

/-- The loop `for runner in self.runners.values(): runner._stop = True` at the
start of `Clock.stop`: every registered runner gets its stop flag set. -/
def flag_runners (rs : List (String × Runner)) : List (String × Runner) :=
  rs.map fun p => (p.1, { p.2 with stopFlag := true })

/-- Source `Clock.stop`: flags every runner, sets `running = False`, sends
`send_stop()` and `send(Message('stop'))` to the sink (two stop events), then
calls `init_reset` with the current runners, bpm and beat_per_bar. -/
def Clock.stop (s : ClockState) : ClockState :=
  let s1 := { s with runners := flag_runners s.runners }
  let s2 := { s1 with running := false }
  let s3 := { s2 with trace := MidiEvent.stop :: MidiEvent.stop :: s2.trace }
  Clock.init_reset s3 s3.runners s3.bpm s3.beat_per_bar

/-- The two errors `Clock.schedule` can raise: the `TypeError` for a
non-coroutine argument, and the `RuntimeError` ("Clock must be started before
functions can be scheduled") that the spec calls `NotRunningError`. -/
inductive ScheduleError where
  | type_error
  | not_running
  deriving DecidableEq, Repr

/-- Source `Clock.schedule(func, *args)`: raises if `func` is not a coroutine
function, then raises if the clock is not running; otherwise keys the runner
table by `func.__name__`, creating a fresh `AsyncRunner` when the name is
absent, pushes `(func, args)` onto that runner, and starts it if it has never
been started.  A raise leaves the state unchanged (the `Except.error`
results). -/
def Clock.schedule (s : ClockState) (func : CoroFunc) (args : List String) :
    Except ScheduleError ClockState :=
  if func.is_coroutine = false then .error .type_error
  else if s.running = false then .error .not_running
  else
    match s.runners.lookup func.name with
    | none =>
        let r0 : Runner := { pending := none, stopFlag := false, started := false }
        let r1 := r0.push func args
        let r2 := if r1.started = false then r1.start else r1
        .ok { s with runners := (func.name, r2) :: s.runners }
    | some r =>
        let r1 := r.push func args
        let r2 := if r1.started = false then r1.start else r1
        .ok { s with
              runners := s.runners.map fun p =>
                if p.1 = func.name then (p.1, r2) else p }

/-- The clock state after a `schedule` call observed by the caller: the new
state on success, the unchanged state when an error was raised. -/
def sched_state (s : ClockState) (func : CoroFunc) (args : List String) :
    ClockState :=
  match Clock.schedule s func args with
  | .ok t => t
  | .error _ => s

/-- Whether an `Except` result of `schedule` is a success. -/
def sched_ok (r : Except ScheduleError ClockState) : Bool :=
  match r with
  | .ok _ => true
  | .error _ => false

/-- Source `_clock_update`, the body executed once per tick of `run_clock`,
flattened into a single simultaneous record update that preserves the
source's read/write order:
* `tick_duration` is recomputed by `_get_tick_duration` before `delta` is
  zeroed, so it reads the previous tick's `delta`;
* the `if self.phase % 2 == 0: send_clock_async()` test reads the phase from
  before `_update_phase`;
* `current_beat` is updated (`_update_current_beat`) only when the updated
  phase is 1; `elapsed_bars` is incremented only when the updated phase and
  the updated beat are both 1;
* `delta` is finally assigned the measured error `end - begin -
  tick_duration`, given here as the parameter `err` (the interim
  `self.delta = 0` is dead: nothing reads `delta` between the two stores). -/
def clock_update (err : ℚ) (s : ClockState) : ClockState :=
  let phase1 := s.phase % s.ppqn + 1
  let beat1 :=
    if phase1 = 1 then s.current_beat % s.beat_per_bar + 1 else s.current_beat
  { s with
    tick_duration := get_tick_duration s
    trace := if s.phase % 2 = 0 then MidiEvent.clock :: s.trace else s.trace
    tick_time := s.tick_time + 1
    phase := phase1
    current_beat := beat1
    elapsed_bars :=
      if phase1 = 1 ∧ beat1 = 1 then s.elapsed_bars + 1 else s.elapsed_bars
    delta := err }

/-- `n` executions of the tick body from state `s`; `errs i` is the measured
scheduling error of the `i`-th tick. -/
def run_ticks (errs : ℕ → ℚ) (s : ClockState) : ℕ → ClockState
  | 0 => s
  | n + 1 => clock_update (errs n) (run_ticks errs s n)

/-- The exit test of `sync`'s polling loop in `src/sardine/__init__.py`:
the loop body runs `while c.phase != 1 and c.elapsed_bars != cur_bar + 1`,
so the loop exits as soon as `phase == 1` or `elapsed_bars == cur_bar + 1`. -/
def sync_exit (cur_bar : ℕ) (s : ClockState) : Bool :=
  s.phase == 1 || s.elapsed_bars == cur_bar + 1

/-- Source `sync()`: captures `cur_bar = c.elapsed_bars`, then polls the
clock (sleeping a fraction of a tick each round) until the loop condition
fails.  The poll granularity is far below one tick, so the suspension is
modelled as observing the clock state at every tick: `sync_run` returns the
first tick state at which `sync_exit` holds, stepping the clock with the
given per-tick errors, or `none` when the error list runs out first. -/
def sync_run (cur_bar : ℕ) (s : ClockState) : List ℚ → Option ClockState
  | [] => if sync_exit cur_bar s then some s else none
  | e :: rest =>
      if sync_exit cur_bar s then some s
      else sync_run cur_bar (clock_update e s) rest

/-- State of the cooperative scheduler around one clock, for `Clock.start`:
`pending_starts` counts `_send_start(initial=True)` coroutines that
`asyncio.create_task` has scheduled but the event loop has not yet run, and
`clock_loops` counts `run_clock` loops launched. -/
structure SchedulerState where
  clock : ClockState
  pending_starts : ℕ
  clock_loops : ℕ
  deriving DecidableEq, Repr

/-- The error `Clock.start` raises on a non-empty runner table: its
reactivation loop calls `self.remove(runner)` passing a Runner where
`remove` expects a function, and `remove` evaluates `runner.__name__`.
Modelled from the spec: `AsyncRunner` (absent from `src/`) carries only a
pending invocation, a stop flag and a started flag — no name attribute — so
the attribute access fails and the exception escapes `start`. -/
inductive StartError where
  | attribute_error
  deriving DecidableEq, Repr

/-- The mutation the reactivation loop of `Clock.start` performs before it
raises: `runner._stop = False` runs for the first runner yielded by
`self.runners.values()`, then `self.remove(runner)` raises, so no later
runner is touched.  Python dicts iterate in insertion order and the
modelled association list keeps the most recent insertion at its head, so
the first-iterated entry is the last entry of the list. -/
def clear_stop_last : List (String × Runner) → List (String × Runner)
  | [] => []
  | [p] => [(p.1, { p.2 with stopFlag := false })]
  | p :: q :: rest => p :: clear_stop_last (q :: rest)

/-- Source `Clock.start`.  The reactivation loop
`for runner in self.runners.values(): runner._stop = False;
self.remove(runner)` — marked "will bug" in the source — runs first: on a
non-empty table its first iteration clears that runner's stop flag and then
`self.remove(runner)` raises (see `StartError`), so `start` terminates
exceptionally with that single flag cleared, the remaining runners
untouched, the `if not self.running` check never reached and no task
scheduled; the `.error` carries the state left behind.  On an empty table
the loop does nothing; then, if `self.running` is false, a
`_send_start(initial=True)` task is scheduled via `asyncio.create_task` —
`running` itself is set only later, inside that task. -/
def Clock.start (σ : SchedulerState) :
    Except (StartError × SchedulerState) SchedulerState :=
  if σ.clock.runners = [] then
    if σ.clock.running then .ok σ
    else .ok { σ with pending_starts := σ.pending_starts + 1 }
  else
    .error (StartError.attribute_error,
      { σ with clock :=
          { σ.clock with runners := clear_stop_last σ.clock.runners } })

/-- The scheduler state after a `start()` call, as later code observes it:
the Python objects keep their mutations whether or not the call raised. -/
def start_state (σ : SchedulerState) : SchedulerState :=
  match Clock.start σ with
  | .ok τ => τ
  | .error (_, τ) => τ

/-- Source `Clock._send_start(initial=True)`, run later by the event loop:
sends a start event to the sink, sets `running = True`, and (because
`initial`) launches a `run_clock` loop.  When no `_send_start` task is
pending this is a no-op. -/
def send_start (σ : SchedulerState) : SchedulerState :=
  if σ.pending_starts = 0 then σ
  else
    { σ with
      pending_starts := σ.pending_starts - 1
      clock := { σ.clock with
                 trace := MidiEvent.start :: σ.clock.trace
                 running := true }
      clock_loops := σ.clock_loops + 1 }

/-- Number of start events in a sink trace. -/
def count_starts (tr : List MidiEvent) : ℕ :=
  tr.count MidiEvent.start

/-- A freshly constructed clock whose table holds one runner, as after a
successful `schedule` of a coroutine function named `one` (compare the
`@swim` functions in `src/sardine/__init__.py`). -/
def clock_with_runner : ClockState :=
  { Clock.init 120 4 with
    runners := [("one", { pending := none, stopFlag := false, started := true })]
    running := true }

/-- A coroutine function named `one`, as accepted by `Clock.schedule`. -/
def coro_one : CoroFunc :=
  { name := "one", is_coroutine := true }

/-- A freshly constructed clock: not running. -/
def stopped_clock : ClockState :=
  Clock.init 120 4

/-- A freshly constructed clock whose `_send_start` task has completed, so
`running` is true. -/
def running_clock : ClockState :=
  { Clock.init 120 4 with running := true }

end Sardine

namespace Sardine

/-! ### Helper lemmas -/

lemma pred_div_of_mod_ne (q b : ℕ) (h : q % b ≠ 0) :
    (q - 1) / b = q / b := by
  rcases Nat.eq_zero_or_pos b with hb | hb
  · subst hb; simp
  · obtain ⟨t, r, hrb, hr1, hqe⟩ :
        ∃ t r, r < b ∧ 1 ≤ r ∧ q = b * t + r :=
      ⟨q / b, q % b, Nat.mod_lt _ hb, Nat.one_le_iff_ne_zero.mpr h,
        (Nat.div_add_mod q b).symm⟩
    subst hqe
    rw [Nat.add_sub_assoc hr1, Nat.mul_add_div hb, Nat.mul_add_div hb,
      Nat.div_eq_of_lt (by omega), Nat.div_eq_of_lt hrb]

lemma pred_div_of_mod_eq (q b : ℕ) (hb : 1 ≤ b) (hq : 1 ≤ q) (h : q % b = 0) :
    q / b = (q - 1) / b + 1 := by
  obtain ⟨t, hqe⟩ : ∃ t, q = b * t :=
    ⟨q / b, by rw [Nat.mul_div_cancel' (Nat.dvd_of_mod_eq_zero h)]⟩
  subst hqe
  obtain ⟨u, rfl⟩ : ∃ u, t = u + 1 := by
    rcases t with _ | u
    · omega
    · exact ⟨u, rfl⟩
  have h1 : b * (u + 1) = b * u + b := by ring
  rw [h1, Nat.add_sub_assoc hb, Nat.mul_add_div hb, Nat.mul_add_div hb,
    Nat.div_eq_of_lt (show b - 1 < b by omega),
    Nat.div_self (show 0 < b by omega)]

lemma clock_update_phase (e : ℚ) (s : ClockState) :
    (clock_update e s).phase = s.phase % s.ppqn + 1 := rfl

lemma clock_update_ppqn (e : ℚ) (s : ClockState) :
    (clock_update e s).ppqn = s.ppqn := rfl

lemma clock_update_bpb (e : ℚ) (s : ClockState) :
    (clock_update e s).beat_per_bar = s.beat_per_bar := rfl

lemma clock_update_tick_time (e : ℚ) (s : ClockState) :
    (clock_update e s).tick_time = s.tick_time + 1 := rfl

lemma clock_update_beat (e : ℚ) (s : ClockState) :
    (clock_update e s).current_beat =
      if (clock_update e s).phase = 1 then s.current_beat % s.beat_per_bar + 1
      else s.current_beat := rfl

lemma clock_update_bars (e : ℚ) (s : ClockState) :
    (clock_update e s).elapsed_bars =
      if (clock_update e s).phase = 1 ∧ (clock_update e s).current_beat = 1
      then s.elapsed_bars + 1 else s.elapsed_bars := rfl

lemma mod_mul_eq_zero_iff (m b : ℕ) :
    m % (48 * b) = 0 ↔ m % 48 = 0 ∧ m / 48 % b = 0 := by
  constructor
  · intro h
    obtain ⟨u, rfl⟩ := Nat.dvd_of_mod_eq_zero h
    have h2 : 48 * b * u = 48 * (b * u) := by ring
    constructor
    · rw [h2, Nat.mul_mod_right]
    · rw [h2, Nat.mul_div_cancel_left _ (by omega : 0 < 48), Nat.mul_mod_right]
  · rintro ⟨h1, h2⟩
    obtain ⟨t, rfl⟩ := Nat.dvd_of_mod_eq_zero h1
    rw [Nat.mul_div_cancel_left _ (by omega : 0 < 48)] at h2
    obtain ⟨u, rfl⟩ := Nat.dvd_of_mod_eq_zero h2
    have h3 : 48 * (b * u) = 48 * b * u := by ring
    rw [h3, Nat.mul_mod_right]

/-- Closed form for the counters after `n ≥ 1` executions of the tick body
from a freshly constructed clock: `phase` runs `1..48` cyclically in order,
`current_beat` advances once every `48` ticks cyclically in `1..b`, and
`elapsed_bars` advances once every `48 * b` ticks — at the first tick of each
bar, so it counts the bar currently in progress. -/
lemma run_ticks_counters (errs : ℕ → ℚ) (bpm : ℚ) (b : ℕ) (hb : 1 ≤ b) :
    ∀ n, 1 ≤ n →
      (run_ticks errs (Clock.init bpm b) n).ppqn = 48 ∧
      (run_ticks errs (Clock.init bpm b) n).beat_per_bar = b ∧
      (run_ticks errs (Clock.init bpm b) n).phase = (n - 1) % 48 + 1 ∧
      (run_ticks errs (Clock.init bpm b) n).current_beat = (n - 1) / 48 % b + 1 ∧
      (run_ticks errs (Clock.init bpm b) n).elapsed_bars = (n - 1) / (48 * b) + 1 ∧
      (run_ticks errs (Clock.init bpm b) n).tick_time = n := by
  intro n
  induction n with
  | zero => omega
  | succ m ih =>
    intro _
    have hstep : run_ticks errs (Clock.init bpm b) (m + 1) =
        clock_update (errs m) (run_ticks errs (Clock.init bpm b) m) := rfl
    rcases Nat.eq_zero_or_pos m with hm | hm
    · subst hm
      rw [hstep]
      have hph : (clock_update (errs 0)
          (run_ticks errs (Clock.init bpm b) 0)).phase = 1 := rfl
      refine ⟨rfl, rfl, hph, ?_, ?_, rfl⟩
      · rw [clock_update_beat, hph, if_pos rfl]
        show 0 % b + 1 = 0 / 48 % b + 1
        simp
      · rw [clock_update_bars, hph, clock_update_beat, hph, if_pos rfl]
        show (if 1 = 1 ∧ 0 % b + 1 = 1 then 0 + 1 else 0) = 0 / (48 * b) + 1
        simp
    · obtain ⟨hpq, hbb, hph, hcb, heb, htt⟩ := ih hm
      rw [hstep]
      set s := run_ticks errs (Clock.init bpm b) m with hs
      have hph' : (clock_update (errs m) s).phase = m % 48 + 1 := by
        rw [clock_update_phase, hph, hpq]
        omega
      have hcb' : (clock_update (errs m) s).current_beat = m / 48 % b + 1 := by
        rw [clock_update_beat, hph', hcb, hbb]
        by_cases h48 : m % 48 = 0
        · rw [if_pos (by omega)]
          have hdiv : m / 48 = (m - 1) / 48 + 1 :=
            pred_div_of_mod_eq m 48 (by omega) hm h48
          rw [hdiv, Nat.mod_add_mod]
        · rw [if_neg (by omega)]
          rw [pred_div_of_mod_ne m 48 h48]
      have heb' : (clock_update (errs m) s).elapsed_bars = m / (48 * b) + 1 := by
        rw [clock_update_bars, hph', hcb', heb]
        by_cases h48 : m % 48 = 0
        · by_cases hbdvd : m / 48 % b = 0
          · rw [if_pos ⟨by omega, by rw [hbdvd]⟩]
            have hz : m % (48 * b) = 0 := (mod_mul_eq_zero_iff m b).mpr ⟨h48, hbdvd⟩
            have h1b : 1 ≤ 48 * b := by
              calc 1 ≤ b := hb
              _ ≤ 48 * b := Nat.le_mul_of_pos_left b (by omega)
            rw [pred_div_of_mod_eq m (48 * b) h1b hm hz]
          · rw [if_neg (fun hc => hbdvd (by omega))]
            have hz : m % (48 * b) ≠ 0 :=
              fun hc => hbdvd ((mod_mul_eq_zero_iff m b).mp hc).2
            rw [pred_div_of_mod_ne m (48 * b) hz]
        · rw [if_neg (fun hc => h48 (by omega))]
          have hz : m % (48 * b) ≠ 0 :=
            fun hc => h48 ((mod_mul_eq_zero_iff m b).mp hc).1
          rw [pred_div_of_mod_ne m (48 * b) hz]
      refine ⟨by rw [clock_update_ppqn]; exact hpq,
        by rw [clock_update_bpb]; exact hbb,
        by rw [hph']; omega,
        by rw [hcb']; simp,
        by rw [heb']; simp,
        by rw [clock_update_tick_time, htt]⟩

end Sardine

namespace Sardine

lemma sync_run_some (cur : ℕ) :
    ∀ (errs : List ℚ) (s t : ClockState), sync_run cur s errs = some t →
      t.phase = 1 ∨ t.elapsed_bars = cur + 1 := by
  intro errs
  induction errs with
  | nil =>
    intro s t h
    rw [sync_run] at h
    by_cases he : sync_exit cur s
    · rw [if_pos he] at h
      injection h with h
      subst h
      simpa [sync_exit] using he
    · rw [if_neg he] at h
      exact absurd h (by simp)
  | cons e rest ih =>
    intro s t h
    rw [sync_run] at h
    by_cases he : sync_exit cur s
    · rw [if_pos he] at h
      injection h with h
      subst h
      simpa [sync_exit] using he
    · rw [if_neg he] at h
      exact ih _ _ h

lemma lookup_none_not_mem (l : List (String × Runner)) (a : String)
    (h : l.lookup a = none) : a ∉ l.map Prod.fst := by
  induction l with
  | nil => simp
  | cons p t ih =>
    rcases p with ⟨k, v⟩
    rw [List.lookup] at h
    by_cases hk : a == k
    · rw [hk] at h
      exact absurd h (by simp)
    · rw [Bool.eq_false_iff.mpr hk] at h
      simp only [List.map_cons, List.mem_cons]
      rintro (hak | hmem)
      · exact hk (by simp [hak])
      · exact ih h hmem

lemma update_keys (l : List (String × Runner)) (n : String) (r : Runner) :
    ((l.map fun p => if p.1 = n then (p.1, r) else p).map Prod.fst) =
      l.map Prod.fst := by
  induction l with
  | nil => rfl
  | cons p t ih =>
    simp only [List.map_cons, ih]
    congr 1
    by_cases hp : p.1 = n
    · rw [if_pos hp]
    · rw [if_neg hp]

lemma update_lookup_hit (l : List (String × Runner)) (n : String) (r : Runner)
    (h : (l.lookup n).isSome = true) :
    (l.map fun p => if p.1 = n then (p.1, r) else p).lookup n = some r := by
  induction l with
  | nil => simp [List.lookup] at h
  | cons p t ih =>
    rcases p with ⟨k, v⟩
    by_cases hk : k = n
    · subst hk
      simp only [List.map_cons, if_pos rfl]
      rw [List.lookup]
      simp
    · simp only [List.map_cons, if_neg hk]
      rw [List.lookup] at h ⊢
      have hnk : (n == k) = false := beq_eq_false_iff_ne.mpr (Ne.symm hk)
      rw [hnk] at h ⊢
      exact ih h

lemma flag_runners_all (rs : List (String × Runner)) :
    ((flag_runners rs).all fun p => p.2.stopFlag) = true := by
  induction rs with
  | nil => rfl
  | cons p t ih => simp [flag_runners]

end Sardine

namespace Sardine

/-! ### Claims -/

set_option maxRecDepth 10000

/-- C1 counterexample: with `beatsPerBar = 4` and `ppqn = 48`, the state after
exactly 192 ticks from a clean start has `elapsed_bars = 1` but `phase = 48`
and `current_beat = 4`, not `phase = 1` and `current_beat = 1` as claimed:
`elapsed_bars` is incremented at the first tick of a bar, so the claimed
triple `(1, 1, 1)` is already reached after 1 tick, and ticks 49, 97, 145
and 192 do not produce it. -/
theorem c1_scenario_counterexample :
    (run_ticks (fun _ => 0) (Clock.init 120 4) 192).elapsed_bars = 1 ∧
    (run_ticks (fun _ => 0) (Clock.init 120 4) 192).phase = 48 ∧
    (run_ticks (fun _ => 0) (Clock.init 120 4) 192).current_beat = 4 := by
  decide

/-- C1 amended: from a clean state, after `n ≥ 1` ticks `phase` equals
`(n-1) % 48 + 1` (so it takes each value in `[1, 48]` exactly once, in
order, cyclically), `current_beat` equals `(n-1)/48 % b + 1` (advancing
exactly once per `ppqn = 48` ticks) and `elapsed_bars` equals
`(n-1)/(48*b) + 1` (advancing exactly once per `beatsPerBar * ppqn` ticks) —
but `elapsed_bars` counts the bar in progress, so with `beatsPerBar = 4` the
state after exactly 192 ticks is `elapsedBars = 1, phase = 48,
currentBeat = 4`, and the claimed triple `elapsedBars = 1, phase = 1,
currentBeat = 1` holds after exactly 1 tick instead. -/
theorem c1_tick_progression (errs : ℕ → ℚ) (bpm : ℚ) (b n : ℕ)
    (hb : 1 ≤ b) (hn : 1 ≤ n) :
    ((run_ticks errs (Clock.init bpm b) n).phase = (n - 1) % 48 + 1 ∧
     (run_ticks errs (Clock.init bpm b) n).current_beat =
       (n - 1) / 48 % b + 1 ∧
     (run_ticks errs (Clock.init bpm b) n).elapsed_bars =
       (n - 1) / (48 * b) + 1) ∧
    ((run_ticks errs (Clock.init bpm 4) 192).elapsed_bars = 1 ∧
     (run_ticks errs (Clock.init bpm 4) 192).phase = 48 ∧
     (run_ticks errs (Clock.init bpm 4) 192).current_beat = 4) ∧
    ((run_ticks errs (Clock.init bpm 4) 1).elapsed_bars = 1 ∧
     (run_ticks errs (Clock.init bpm 4) 1).phase = 1 ∧
     (run_ticks errs (Clock.init bpm 4) 1).current_beat = 1) := by
  obtain ⟨-, -, hph, hcb, heb, -⟩ := run_ticks_counters errs bpm b hb n hn
  obtain ⟨-, -, hph2, hcb2, heb2, -⟩ :=
    run_ticks_counters errs bpm 4 (by omega) 192 (by omega)
  obtain ⟨-, -, hph3, hcb3, heb3, -⟩ :=
    run_ticks_counters errs bpm 4 (by omega) 1 (by omega)
  refine ⟨⟨hph, hcb, heb⟩,
    ⟨by rw [heb2], by rw [hph2], by rw [hcb2]⟩,
    ⟨by rw [heb3], by rw [hph3], by rw [hcb3]⟩⟩

/-- C1 witness: the amended statement instantiated at `errs = 0`,
`bpm = 120`, `b = 4`, `n = 192`. -/
theorem c1_tick_progression_witness :
    ((run_ticks (fun _ => (0 : ℚ)) (Clock.init 120 4) 192).phase =
       (192 - 1) % 48 + 1 ∧
     (run_ticks (fun _ => (0 : ℚ)) (Clock.init 120 4) 192).current_beat =
       (192 - 1) / 48 % 4 + 1 ∧
     (run_ticks (fun _ => (0 : ℚ)) (Clock.init 120 4) 192).elapsed_bars =
       (192 - 1) / (48 * 4) + 1) ∧
    ((run_ticks (fun _ => (0 : ℚ)) (Clock.init 120 4) 192).elapsed_bars = 1 ∧
     (run_ticks (fun _ => (0 : ℚ)) (Clock.init 120 4) 192).phase = 48 ∧
     (run_ticks (fun _ => (0 : ℚ)) (Clock.init 120 4) 192).current_beat = 4) ∧
    ((run_ticks (fun _ => (0 : ℚ)) (Clock.init 120 4) 1).elapsed_bars = 1 ∧
     (run_ticks (fun _ => (0 : ℚ)) (Clock.init 120 4) 1).phase = 1 ∧
     (run_ticks (fun _ => (0 : ℚ)) (Clock.init 120 4) 1).current_beat = 1) :=
  c1_tick_progression (fun _ => 0) 120 4 192 (by omega) (by omega)

/-- C2 counterexample: `stop()` does not leave the RunnerTable unchanged.
On a clock with one registered runner, `stop` leaves an empty runner table
(`init_reset` installs a fresh `{}`, ignoring the runners it was passed). -/
theorem c2_runner_table_counterexample :
    clock_with_runner.runners ≠ [] ∧
    (Clock.stop clock_with_runner).runners = [] := by
  decide

/-- C2 amended: `stop()` sets the stop flag of every registered Runner,
emits stop events to the sink, sets `running = false`, and resets `phase`,
`current_beat`, `elapsed_bars`, `tick_time` and `delta` to their zero
baseline, retaining `bpm`, `ppqn` (always 48) and `beat_per_bar` — but it
also clears the RunnerTable to empty and resets the debug flag, rather than
leaving the runners mapping unchanged. -/
theorem c2_stop_effects (s : ClockState) :
    (Clock.stop s).running = false ∧
    (Clock.stop s).phase = 0 ∧
    (Clock.stop s).current_beat = 0 ∧
    (Clock.stop s).elapsed_bars = 0 ∧
    (Clock.stop s).tick_time = 0 ∧
    (Clock.stop s).delta = 0 ∧
    (Clock.stop s).bpm = s.bpm ∧
    (Clock.stop s).ppqn = 48 ∧
    (Clock.stop s).beat_per_bar = s.beat_per_bar ∧
    (Clock.stop s).runners = [] ∧
    (Clock.stop s).debug = false ∧
    (Clock.stop s).trace = MidiEvent.stop :: MidiEvent.stop :: s.trace ∧
    ((flag_runners s.runners).all fun p => p.2.stopFlag) = true :=
  ⟨rfl, rfl, rfl, rfl, rfl, rfl, rfl, rfl, rfl, rfl, rfl, rfl,
    flag_runners_all s.runners⟩

/-- C3: for every state with `1 < bpm < 800`, the computed tick duration is
`(60 / bpm) / ppqn - delta`; with `delta = 0` it is `(60 / bpm) / ppqn`, and
at `bpm = 120`, `ppqn = 48`, `delta = 0` it is exactly `1/96` of a second
(`≈ 0.0104167 s`). -/
theorem c3_tick_duration_formula (s : ClockState)
    (h1 : 1 < s.bpm) (h2 : s.bpm < 800) :
    get_tick_duration s = (60 / s.bpm) / (s.ppqn : ℚ) - s.delta ∧
    (s.delta = 0 → get_tick_duration s = (60 / s.bpm) / (s.ppqn : ℚ)) ∧
    (s.bpm = 120 → s.ppqn = 48 → s.delta = 0 →
      get_tick_duration s = 1 / 96) := by
  refine ⟨rfl, ?_, ?_⟩
  · intro hd
    rw [get_tick_duration, hd, sub_zero]
  · intro hb hp hd
    rw [get_tick_duration, hb, hp, hd]
    norm_num

/-- C3 witness: the fresh clock has `bpm = 120`, `ppqn = 48`, `delta = 0`,
and its tick duration is exactly `1/96`. -/
theorem c3_tick_duration_witness :
    1 < (Clock.init 120 4).bpm ∧ (Clock.init 120 4).bpm < 800 ∧
    get_tick_duration (Clock.init 120 4) = 1 / 96 :=
  ⟨by norm_num [Clock.init], by norm_num [Clock.init],
    (c3_tick_duration_formula (Clock.init 120 4) (by norm_num [Clock.init])
      (by norm_num [Clock.init])).2.2 rfl rfl rfl⟩

/-- C4 counterexample: `sync()` called two ticks after a clean start
(`elapsed_bars` observed as 1) returns at the next beat boundary, tick 49,
where `phase = 1` but `elapsed_bars` is still 1 — the bar has not advanced
past the observed value, contradicting the claim that `sync` returns only at
a bar boundary. -/
theorem c4_beat_boundary_counterexample :
    (sync_run (run_ticks (fun _ => 0) (Clock.init 120 4) 2).elapsed_bars
        (run_ticks (fun _ => 0) (Clock.init 120 4) 2)
        (List.replicate 60 (0 : ℚ))).map ClockState.phase = some 1 ∧
    (sync_run (run_ticks (fun _ => 0) (Clock.init 120 4) 2).elapsed_bars
        (run_ticks (fun _ => 0) (Clock.init 120 4) 2)
        (List.replicate 60 (0 : ℚ))).map ClockState.elapsed_bars = some 1 ∧
    (run_ticks (fun _ => 0) (Clock.init 120 4) 2).elapsed_bars = 1 := by
  decide

/-- C4 amended: whenever `sync`'s polling loop returns, the state it returns
at satisfies `phase = 1` OR `elapsed_bars = cur_bar + 1` (`cur_bar` being the
value observed at call time) — the loop condition uses `and`, so the first
beat boundary suffices; returning is not restricted to bar boundaries. -/
theorem c4_sync_exit_condition (cur : ℕ) (errs : List ℚ) (s : ClockState)
    (h : (sync_run cur s errs).isSome = true) :
    (sync_run cur s errs).map ClockState.phase = some 1 ∨
    (sync_run cur s errs).map ClockState.elapsed_bars = some (cur + 1) := by
  cases hopt : sync_run cur s errs with
  | none =>
    rw [hopt] at h
    exact absurd h (by simp)
  | some t =>
    rcases sync_run_some cur errs s t hopt with hp | hb
    · exact Or.inl (by simp [hp])
    · exact Or.inr (by simp [hb])

/-- C4 witness: `sync` called on the fresh clock returns within one tick. -/
theorem c4_sync_exit_witness :
    (sync_run 0 (Clock.init 120 4) [(0 : ℚ)]).isSome = true ∧
    ((sync_run 0 (Clock.init 120 4) [(0 : ℚ)]).map ClockState.phase = some 1 ∨
     (sync_run 0 (Clock.init 120 4) [(0 : ℚ)]).map ClockState.elapsed_bars =
       some (0 + 1)) :=
  ⟨by decide,
    c4_sync_exit_condition 0 [(0 : ℚ)] (Clock.init 120 4) (by decide)⟩

/-- C5 counterexample: two `start()` calls made back to back on a fresh
clock (empty runner table), before the event loop runs the `_send_start`
task scheduled by the first call — so `running` is still false at the second
call — each schedule an emission: once both tasks run, the sink has received
two start events and two tick loops have been launched, not exactly one as
claimed. -/
theorem c5_double_start_counterexample :
    count_starts (send_start (send_start (start_state (start_state
        ⟨Clock.init 120 4, 0, 0⟩)))).clock.trace = 2 ∧
    (send_start (send_start (start_state (start_state
        ⟨Clock.init 120 4, 0, 0⟩)))).clock_loops = 2 := by
  decide

/-- C5 amended: `start()` is idempotent only in the state where the
`_send_start` task of a previous call has already run AND no runner is
registered: with `running = true` and an empty runner table, `start()`
returns normally and changes nothing — no emission, no tick loop, no
counter reset.  Otherwise the claim fails: two calls made before the task
runs both pass the `running` check and the start event is emitted twice
(the counterexample), and on a non-empty runner table `start()` is not a
no-op at all — its reactivation loop clears the stop flag of the
first-iterated runner and then raises inside `self.remove(runner)`. -/
theorem c5_start_noop_when_running (σ : SchedulerState) :
    (σ.clock.running = true → σ.clock.runners = [] →
      Clock.start σ = .ok σ) ∧
    (σ.clock.runners ≠ [] →
      Clock.start σ = .error (StartError.attribute_error,
        { σ with clock :=
            { σ.clock with runners := clear_stop_last σ.clock.runners } })) := by
  constructor
  · intro hr he
    rw [Clock.start, if_pos he, if_pos hr]
  · intro hne
    rw [Clock.start, if_neg hne]

/-- C5 witness: on the running clock with no runners, `start()` returns the
state unchanged; on the running clock with one registered runner, `start()`
raises, leaving that runner's stop flag cleared. -/
theorem c5_start_noop_witness :
    ((⟨running_clock, 0, 1⟩ : SchedulerState).clock.running = true ∧
     (⟨running_clock, 0, 1⟩ : SchedulerState).clock.runners = [] ∧
     Clock.start ⟨running_clock, 0, 1⟩ = .ok ⟨running_clock, 0, 1⟩) ∧
    ((⟨clock_with_runner, 0, 1⟩ : SchedulerState).clock.runners ≠ [] ∧
     Clock.start ⟨clock_with_runner, 0, 1⟩ =
       .error (StartError.attribute_error,
         { (⟨clock_with_runner, 0, 1⟩ : SchedulerState) with clock :=
             { (⟨clock_with_runner, 0, 1⟩ : SchedulerState).clock with
               runners := clear_stop_last
                 (⟨clock_with_runner, 0, 1⟩ :
                   SchedulerState).clock.runners } })) :=
  ⟨⟨rfl, rfl,
     (c5_start_noop_when_running ⟨running_clock, 0, 1⟩).1 rfl rfl⟩,
   ⟨by decide,
     (c5_start_noop_when_running ⟨clock_with_runner, 0, 1⟩).2 (by decide)⟩⟩

/-- C6 counterexample: immediately after construction, `phase = 0` and
`current_beat = 0`, outside the claimed cyclic ranges `[1, ppqn]` and
`[1, beatsPerBar]`. -/
theorem c6_initial_phase_counterexample :
    (Clock.init 120 4).phase = 0 ∧
    (Clock.init 120 4).current_beat = 0 ∧
    ¬ (1 ≤ (Clock.init 120 4).phase) := by
  decide

/-- C6 amended: after at least one tick from a clean state, `phase` lies in
`[1, ppqn]` and `current_beat` lies in `[1, beatsPerBar]` — but immediately
after construction (and after `stop`/`reset`, which restore the same
baseline) both counters are 0, outside their cyclic ranges. -/
theorem c6_phase_beat_ranges (errs : ℕ → ℚ) (bpm : ℚ) (b n : ℕ)
    (hb : 1 ≤ b) (hn : 1 ≤ n) :
    (1 ≤ (run_ticks errs (Clock.init bpm b) n).phase ∧
     (run_ticks errs (Clock.init bpm b) n).phase ≤
       (run_ticks errs (Clock.init bpm b) n).ppqn) ∧
    (1 ≤ (run_ticks errs (Clock.init bpm b) n).current_beat ∧
     (run_ticks errs (Clock.init bpm b) n).current_beat ≤
       (run_ticks errs (Clock.init bpm b) n).beat_per_bar) ∧
    (Clock.init bpm b).phase = 0 ∧ (Clock.init bpm b).current_beat = 0 := by
  obtain ⟨hpq, hbb, hph, hcb, -, -⟩ := run_ticks_counters errs bpm b hb n hn
  refine ⟨⟨?_, ?_⟩, ⟨?_, ?_⟩, rfl, rfl⟩
  · rw [hph]; omega
  · rw [hph, hpq]; omega
  · rw [hcb]; omega
  · rw [hcb, hbb]
    have hlt := Nat.mod_lt ((n - 1) / 48) (show 0 < b by omega)
    omega

/-- C6 witness: the range statement instantiated after 5 ticks of the fresh
clock. -/
theorem c6_phase_beat_ranges_witness :
    (1 ≤ (run_ticks (fun _ => (0 : ℚ)) (Clock.init 120 4) 5).phase ∧
     (run_ticks (fun _ => (0 : ℚ)) (Clock.init 120 4) 5).phase ≤
       (run_ticks (fun _ => (0 : ℚ)) (Clock.init 120 4) 5).ppqn) ∧
    (1 ≤ (run_ticks (fun _ => (0 : ℚ)) (Clock.init 120 4) 5).current_beat ∧
     (run_ticks (fun _ => (0 : ℚ)) (Clock.init 120 4) 5).current_beat ≤
       (run_ticks (fun _ => (0 : ℚ)) (Clock.init 120 4) 5).beat_per_bar) ∧
    (Clock.init 120 4).phase = 0 ∧ (Clock.init 120 4).current_beat = 0 :=
  c6_phase_beat_ranges (fun _ => 0) 120 4 5 (by omega) (by omega)

/-- C7: `schedule` called with a coroutine function while the clock is not
running raises the not-running error (the spec's `NotRunningError`) and
leaves the clock state (RunnerTable included) unchanged; a `schedule` call
succeeds only when the clock is running. -/
theorem c7_schedule_not_running (s : ClockState) (func : CoroFunc)
    (args : List String) :
    (func.is_coroutine = true → s.running = false →
      Clock.schedule s func args = .error .not_running ∧
      sched_state s func args = s) ∧
    (sched_ok (Clock.schedule s func args) = true → s.running = true) := by
  constructor
  · intro hf hr
    have h : Clock.schedule s func args = .error .not_running := by
      rw [Clock.schedule, if_neg (by rw [hf]; simp), if_pos hr]
    exact ⟨h, by rw [sched_state, h]⟩
  · intro hok
    by_cases hr : s.running = true
    · exact hr
    · exfalso
      have hr' : s.running = false := by simpa using hr
      rw [Clock.schedule] at hok
      by_cases hf : func.is_coroutine = false
      · rw [if_pos hf] at hok
        simp [sched_ok] at hok
      · rw [if_neg hf, if_pos hr'] at hok
        simp [sched_ok] at hok

/-- C7 witness: scheduling `one` on the stopped clock raises the not-running
error and changes nothing; the same call on the running clock succeeds. -/
theorem c7_schedule_not_running_witness :
    (coro_one.is_coroutine = true ∧ stopped_clock.running = false ∧
      Clock.schedule stopped_clock coro_one [] =
        Except.error ScheduleError.not_running ∧
      sched_state stopped_clock coro_one [] = stopped_clock) ∧
    (sched_ok (Clock.schedule running_clock coro_one []) = true ∧
      running_clock.running = true) :=
  ⟨⟨rfl, rfl,
     ((c7_schedule_not_running stopped_clock coro_one []).1 rfl rfl).1,
     ((c7_schedule_not_running stopped_clock coro_one []).1 rfl rfl).2⟩,
   ⟨by decide,
     (c7_schedule_not_running running_clock coro_one []).2 (by decide)⟩⟩

/-- C8: `set_bpm v` updates `bpm` to `v` exactly when `1 < v < 800`; for any
`v` outside that open interval the call raises nothing and leaves the whole
clock state (`bpm` and `tick_duration` included) unchanged. -/
theorem c8_set_bpm_guard (s : ClockState) (v : ℚ) :
    (1 < v → v < 800 → (Clock.set_bpm s v).bpm = v) ∧
    (¬ (1 < v ∧ v < 800) → Clock.set_bpm s v = s) := by
  constructor
  · intro h1 h2
    rw [Clock.set_bpm, if_pos ⟨h1, h2⟩]
  · intro h
    rw [Clock.set_bpm, if_neg h]

/-- C8 witness: `set_bpm 500` applies; `set_bpm 900` is a silent no-op. -/
theorem c8_set_bpm_guard_witness :
    (1 < (500 : ℚ) ∧ (500 : ℚ) < 800 ∧
      (Clock.set_bpm (Clock.init 120 4) 500).bpm = 500) ∧
    (¬ (1 < (900 : ℚ) ∧ (900 : ℚ) < 800) ∧
      Clock.set_bpm (Clock.init 120 4) 900 = Clock.init 120 4) :=
  ⟨⟨by norm_num, by norm_num,
     (c8_set_bpm_guard (Clock.init 120 4) 500).1 (by norm_num) (by norm_num)⟩,
   ⟨by norm_num, (c8_set_bpm_guard (Clock.init 120 4) 900).2 (by norm_num)⟩⟩

/-- C9: a successful `schedule` keys the RunnerTable by the function's
`__name__`: when the name is absent a single fresh Runner (pending set to
the pushed invocation, started) is inserted; when a runner already exists
under that name it is reused — its pending slot is overwritten and no new
entry is created, so the table never holds two Runners for one name
(distinct keys stay distinct). -/
theorem c9_schedule_identity (s : ClockState) (func : CoroFunc)
    (args : List String) (hf : func.is_coroutine = true)
    (hr : s.running = true) (hnd : (s.runners.map Prod.fst).Nodup) :
    ((sched_state s func args).runners.map Prod.fst).Nodup ∧
    (s.runners.lookup func.name = none →
      (sched_state s func args).runners =
        (func.name,
          { pending := some (func, args), stopFlag := false,
            started := true }) :: s.runners) ∧
    (∀ r, s.runners.lookup func.name = some r →
      (sched_state s func args).runners.map Prod.fst =
        s.runners.map Prod.fst ∧
      (sched_state s func args).runners.lookup func.name =
        some { r with pending := some (func, args), started := true }) := by
  have hfne : ¬ (func.is_coroutine = false) := by rw [hf]; simp
  have hrne : ¬ (s.running = false) := by rw [hr]; simp
  cases hcase : s.runners.lookup func.name with
  | none =>
    have hres : sched_state s func args =
        { s with runners :=
            (func.name,
              ({ pending := some (func, args), stopFlag := false,
                 started := true } : Runner)) :: s.runners } := by
      rw [sched_state, Clock.schedule, if_neg hfne, if_neg hrne]
      simp only [hcase]
      rfl
    refine ⟨?_, fun _ => by rw [hres], ?_⟩
    · rw [hres]
      exact List.nodup_cons.mpr
        ⟨lookup_none_not_mem s.runners func.name hcase, hnd⟩
    · intro r hrr
      exact absurd hrr (by simp)
  | some r0 =>
    have hr2eq : ∀ rr : Runner,
        (if (rr.push func args).started = false then (rr.push func args).start
         else rr.push func args) =
          { rr with pending := some (func, args), started := true } := by
      intro rr
      rcases rr with ⟨p, st, sd⟩
      rcases sd with _ | _ <;> simp [Runner.push, Runner.start]
    have hres : sched_state s func args =
        { s with runners := s.runners.map fun p =>
            if p.1 = func.name then
              (p.1, { r0 with pending := some (func, args), started := true })
            else p } := by
      rw [sched_state, Clock.schedule, if_neg hfne, if_neg hrne]
      simp only [hcase]
      simp only [hr2eq r0]
    refine ⟨?_, ?_, ?_⟩
    · rw [hres]
      show ((s.runners.map fun p =>
        if p.1 = func.name then
          (p.1, { r0 with pending := some (func, args), started := true })
        else p).map Prod.fst).Nodup
      rw [update_keys]
      exact hnd
    · intro hnone
      exact absurd hnone (by simp)
    · intro r hrr
      injection hrr with hrr
      subst hrr
      constructor
      · rw [hres]
        exact update_keys s.runners func.name _
      · rw [hres]
        exact update_lookup_hit s.runners func.name _ (by rw [hcase]; rfl)

/-- C9 witness: scheduling `one` on the running clock (empty table) inserts
exactly one runner keyed `one`, with the invocation pending and no duplicate
keys. -/
theorem c9_schedule_identity_witness :
    coro_one.is_coroutine = true ∧ running_clock.running = true ∧
    (running_clock.runners.map Prod.fst).Nodup ∧
    ((sched_state running_clock coro_one []).runners.map Prod.fst).Nodup ∧
    (sched_state running_clock coro_one []).runners =
      (coro_one.name,
        { pending := some (coro_one, []), stopFlag := false,
          started := true }) :: running_clock.runners :=
  ⟨rfl, rfl, by simp [running_clock, Clock.init],
   (c9_schedule_identity running_clock coro_one [] rfl rfl
     (by simp [running_clock, Clock.init])).1,
   (c9_schedule_identity running_clock coro_one [] rfl rfl
     (by simp [running_clock, Clock.init])).2.1 (by decide)⟩

/-- C10: `reset()` zeroes `phase`, `current_beat`, `elapsed_bars`,
`tick_time` and `delta`, clears the RunnerTable and the debug flag, and
preserves `bpm`, `beat_per_bar` and the sink (its trace); unlike `stop()` it
leaves `running` unchanged, emits nothing, and sets no runner's stop flag. -/
theorem c10_reset_effects (s : ClockState) :
    (Clock.reset s).phase = 0 ∧
    (Clock.reset s).current_beat = 0 ∧
    (Clock.reset s).elapsed_bars = 0 ∧
    (Clock.reset s).tick_time = 0 ∧
    (Clock.reset s).delta = 0 ∧
    (Clock.reset s).runners = [] ∧
    (Clock.reset s).debug = false ∧
    (Clock.reset s).bpm = s.bpm ∧
    (Clock.reset s).beat_per_bar = s.beat_per_bar ∧
    (Clock.reset s).trace = s.trace ∧
    (Clock.reset s).running = s.running :=
  ⟨rfl, rfl, rfl, rfl, rfl, rfl, rfl, rfl, rfl, rfl, rfl⟩

end Sardine
